import Mathlib

/-!
Verification of the `kubeinterface` package of KubeDevice.

The Go source (src/kubeinterface/kubeinterface.go) synchronizes a
scheduler-private data model (NodeInfo / PodInfo / ContainerInfo from the
external KubeDevice-API `types` package) with Kubernetes objects through a
reserved annotation key, and writes updates back with strategic merge
patches or an annotations-only full update.

Go maps are embedded as association lists (`Smap`): `Smap.insert`
overwrites the entry of an existing key in place, which matches a Go map
assignment, and `Smap.lookup` retrieves the entry.  A Go map never holds a
key twice; universally quantified theorems carry this as a `Smap.WF`
(no-duplicate-keys) hypothesis where it matters.  A nil-able Go map or
pointer is an `Option`.  Errors (`error` in Go) are `Except String`.
-/

set_option autoImplicit false

namespace KubeDevice

/-- A Go `map[string]β`, embedded as an association list. -/
abbrev Smap (β : Type) : Type := List (String × β)

/-- Lookup (`m[k]`): value of the first entry with key `k`. -/
def Smap.lookup {β : Type} : Smap β → String → Option β
  | [], _ => none
  | (k', v') :: t, k => if k' = k then some v' else Smap.lookup t k

/-- Go map assignment `m[k] = v`: replace the entry in place, or append. -/
def Smap.insert {β : Type} : Smap β → String → β → Smap β
  | [], k, v => [(k, v)]
  | (k', v') :: t, k, v =>
      if k' = k then (k, v) :: t else (k', v') :: Smap.insert t k v

/-- Keys of the map. -/
def Smap.keys {β : Type} (m : Smap β) : List String := m.map Prod.fst

/-- Well-formedness: a Go map never holds a key twice. -/
abbrev Smap.WF {β : Type} (m : Smap β) : Prop := (Smap.keys m).Nodup

/-- The Go loop `for k, v := range src { dst[k] = v }`. -/
def Smap.mergeInto {β : Type} (src dst : Smap β) : Smap β :=
  src.foldl (fun d kv => Smap.insert d kv.1 kv.2) dst

/-- Key-wise copy: `out := make(map); for k, v := range m { out[k] = v }`. -/
def Smap.copy {β : Type} (m : Smap β) : Smap β := Smap.mergeInto m []

/-- The Go loop `for k, v := range m { m[k] = f(v) }` (keys unchanged). -/
def Smap.mapVal {β : Type} (f : β → β) (m : Smap β) : Smap β :=
  m.map fun kv => (kv.1, f kv.2)

/-- `types.ResourceList`: resource name to quantity value (`int64`). -/
abbrev ResourceList : Type := Smap Int

/-- `types.NodeInfo` from the KubeDevice-API `types` package.
Modelled from the spec: the `types` package is external to this
repository; §3 gives its fields.  `Name`, orchestrator-reported
capacity/allocatable, and scheduler-private `Used`. -/
structure NodeInfo where
  name : String
  kubeCap : ResourceList
  kubeAlloc : ResourceList
  used : ResourceList
  deriving DecidableEq, Repr

/-- Modelled from the spec: `types.NewNodeInfo` returns a freshly
initialized model whose maps are empty and materialized (non-nil). -/
def NewNodeInfo : NodeInfo :=
  { name := "", kubeCap := [], kubeAlloc := [], used := [] }

/-- `types.ContainerInfo`.  Modelled from the spec (§3): private
`Requests`, orchestrator-declared `KubeRequests`, device requests
`DevRequests`, and the device assignment `AllocateFrom`. -/
structure ContainerInfo where
  requests : ResourceList
  kubeRequests : ResourceList
  devRequests : ResourceList
  allocateFrom : Smap String
  deriving DecidableEq, Repr

/-- Modelled from the spec: `types.NewContainerInfo` returns a zero value
with all maps materialized empty. -/
def NewContainerInfo : ContainerInfo :=
  { requests := [], kubeRequests := [], devRequests := [], allocateFrom := [] }

/-- Modelled from the spec: `types.FillContainerInfo` materializes any nil
map of the container before it is merged into — in this embedding maps are
always materialized, so it is the identity. -/
def FillContainerInfo (c : ContainerInfo) : ContainerInfo := c

/-- `types.PodInfo`.  Modelled from the spec (§3). -/
structure PodInfo where
  name : String
  nodeName : String
  initContainers : Smap ContainerInfo
  runningContainers : Smap ContainerInfo
  deriving DecidableEq, Repr

/-- Modelled from the spec: `types.NewPodInfo` returns a freshly
initialized model, empty strings and empty materialized maps. -/
def NewPodInfo : PodInfo :=
  { name := "", nodeName := "", initContainers := [], runningContainers := [] }

/-- A value stored in a `map[string]string` annotation map.  Modelled from
the spec: the codec serializes the private model to a self-contained
textual form (`json.Marshal`); the embedding keeps the serialized model
symbolic instead of producing concrete JSON text.  `malformed s` stands
for any string `json.Unmarshal` rejects. -/
inductive AnnVal where
  | nodeJson (n : NodeInfo)
  | podJson (p : PodInfo)
  | malformed (s : String)
  deriving DecidableEq, Repr

/-- The reserved annotation key used by encode and decode. -/
def deviceInfoKey : String := "KubeDevice/DeviceInfo"

/-- Error text produced by a failing `json.Unmarshal`. -/
def unmarshalErr (s : String) : String := "json: cannot unmarshal " ++ s

/-- Modelled from the spec: `json.Unmarshal` of an annotation value into a
freshly created `NodeInfo`.  A serialized `NodeInfo` is recovered exactly;
a serialized `PodInfo` decodes with ignore-unknown-field semantics (only
the shared `Name` field lands); a malformed value is a reportable error. -/
def unmarshalNodeInfo (v : AnnVal) : Except String NodeInfo :=
  match v with
  | AnnVal.nodeJson n => Except.ok n
  | AnnVal.podJson p => Except.ok { NewNodeInfo with name := p.name }
  | AnnVal.malformed s => Except.error (unmarshalErr s)

/-- Modelled from the spec: `json.Unmarshal` into a fresh `PodInfo`. -/
def unmarshalPodInfo (v : AnnVal) : Except String PodInfo :=
  match v with
  | AnnVal.podJson p => Except.ok p
  | AnnVal.nodeJson n => Except.ok { NewPodInfo with name := n.name }
  | AnnVal.malformed s => Except.error (unmarshalErr s)

/-- `metav1.ObjectMeta`: the fields this package reads or writes, plus
`labels` as a representative untouched sibling field.  `annotations` is a
nil-able Go map. -/
structure ObjectMeta where
  name : String
  nspace : String
  labels : Smap String
  annotations : Option (Smap AnnVal)
  deriving DecidableEq, Repr

/-- `strings.TrimSpace`: drop leading and trailing whitespace. -/
def trimSpace (s : String) : String :=
  String.mk (((s.data.dropWhile Char.isWhitespace).reverse.dropWhile Char.isWhitespace).reverse)

/-- `NodeInfoToAnnotation` (kubeinterface.go:30): marshal the node info
and store it under the reserved key, materializing a nil annotations map
first.  `json.Marshal` of the model cannot fail, so the embedding returns
the updated metadata directly. -/
def NodeInfoToAnnotation (meta : ObjectMeta) (nodeInfo : NodeInfo) : ObjectMeta :=
  let anns := meta.annotations.getD []
  { meta with
    annotations := some (Smap.insert anns deviceInfoKey (AnnVal.nodeJson nodeInfo)) }

/-- Lines 45-54 of `AnnotationToNodeInfo`: unmarshal the reserved
annotation into a fresh `NewNodeInfo` when present. -/
def decodeNodeAnn (meta : ObjectMeta) : Except String NodeInfo :=
  match meta.annotations with
  | some anns =>
      match Smap.lookup anns deviceInfoKey with
      | some v => unmarshalNodeInfo v
      | none => Except.ok NewNodeInfo
  | none => Except.ok NewNodeInfo

/-- `AnnotationToNodeInfo` (kubeinterface.go:44): start from
`NewNodeInfo`, unmarshal the reserved annotation when present, default an
empty (all-whitespace) name to the object's name, then merge the
caller-supplied existing `Used` over the decoded `Used`.

The Go guard `existingNodeInfo.Used != nil` only skips an empty loop when
`Used` is nil, so the unconditional merge here is extensionally the same
(merging an empty map changes nothing). -/
def AnnotationToNodeInfo (meta : ObjectMeta) (existingNodeInfo : Option NodeInfo) :
    Except String NodeInfo :=
  match decodeNodeAnn meta with
  | Except.error e => Except.error e
  | Except.ok ni0 =>
      let ni1 := if trimSpace ni0.name = "" then { ni0 with name := meta.name } else ni0
      let ni2 :=
        match existingNodeInfo with
        | some ex => { ni1 with used := Smap.mergeInto ex.used ni1.used }
        | none => ni1
      Except.ok ni2

/-- `kubev1.Container`: name and `Resources.Requests` with quantities
already taken through `.Value()` to `int64`. -/
structure KContainer where
  name : String
  requests : ResourceList
  deriving DecidableEq, Repr

/-- `kubev1.PodSpec`: the fields this package reads, plus `nodeName` as
the immutable placement field §4.4 talks about. -/
structure PodSpec where
  nodeName : String
  initContainers : List KContainer
  containers : List KContainer
  deriving DecidableEq, Repr

/-- `kubev1.PodStatus`, kept opaque. -/
structure PodStatus where
  phase : String
  deriving DecidableEq, Repr

/-- `kubev1.Pod`. -/
structure Pod where
  meta : ObjectMeta
  spec : PodSpec
  status : PodStatus
  deriving DecidableEq, Repr

/-- `kubev1.NodeSpec`, kept opaque. -/
structure NodeSpec where
  podCIDR : String
  deriving DecidableEq, Repr

/-- `kubev1.NodeStatus`: capacity and allocatable with quantities taken
through `.Value()`. -/
structure NodeStatus where
  capacity : ResourceList
  allocatable : ResourceList
  deriving DecidableEq, Repr

/-- `kubev1.Node`. -/
structure Node where
  meta : ObjectMeta
  spec : NodeSpec
  status : NodeStatus
  deriving DecidableEq, Repr

/-- `KubeNodeToNodeInfo` (kubeinterface.go:67): decode, then copy the
authoritative capacity/allocatable into the model. -/
def KubeNodeToNodeInfo (knode : Node) (existingNodeInfo : Option NodeInfo) :
    Except String NodeInfo :=
  match AnnotationToNodeInfo knode.meta existingNodeInfo with
  | Except.error e => Except.error e
  | Except.ok ni =>
      let ni := { ni with kubeCap := Smap.mergeInto knode.status.capacity ni.kubeCap }
      let ni := { ni with kubeAlloc := Smap.mergeInto knode.status.allocatable ni.kubeAlloc }
      Except.ok ni

/-- The body of the first loop of `addContainersToPodInfo`
(kubeinterface.go:82-92): look up or materialize the container, then copy
each declared request into `KubeRequests`. -/
def addOneContainer (m : Smap ContainerInfo) (c : KContainer) : Smap ContainerInfo :=
  let cont := (Smap.lookup m c.name).getD NewContainerInfo
  let contF := FillContainerInfo cont
  let contF := { contF with kubeRequests := Smap.mergeInto c.requests contF.kubeRequests }
  Smap.insert m c.name contF

/-- The body of the invalidation loop (kubeinterface.go:94-101): reset
`AllocateFrom` and rebuild `DevRequests` as a key-wise copy of `Requests`. -/
def invalidateContainer (cont : ContainerInfo) : ContainerInfo :=
  { cont with allocateFrom := [], devRequests := Smap.copy cont.requests }

/-- `addContainersToPodInfo` (kubeinterface.go:81): merge the live spec
containers into the private map, then invalidate every entry if asked. -/
def addContainersToPodInfo (containers : Smap ContainerInfo) (conts : List KContainer)
    (invalidateExistingAnnotations : Bool) : Smap ContainerInfo :=
  let m := conts.foldl addOneContainer containers
  if invalidateExistingAnnotations then Smap.mapVal invalidateContainer m else m

/-- Lines 109-117 of `KubePodInfoToPodInfo`: unmarshal the reserved
annotation into a fresh `NewPodInfo` when present. -/
def decodePodAnn (meta : ObjectMeta) : Except String PodInfo :=
  match meta.annotations with
  | some anns =>
      match Smap.lookup anns deviceInfoKey with
      | some v => unmarshalPodInfo v
      | none => Except.ok NewPodInfo
  | none => Except.ok NewPodInfo

/-- `KubePodInfoToPodInfo` (kubeinterface.go:106): start from
`NewPodInfo`, unmarshal the reserved annotation when present, take the
name from the object's metadata unconditionally, reconcile both container
lists, and clear `NodeName` when invalidating. -/
def KubePodInfoToPodInfo (kubePodInfo : Pod) (invalidateExistingAnnotations : Bool) :
    Except String PodInfo :=
  match decodePodAnn kubePodInfo.meta with
  | Except.error e => Except.error e
  | Except.ok pi0 =>
      let pi1 := { pi0 with name := kubePodInfo.meta.name }
      let pi2 := { pi1 with
        initContainers :=
          addContainersToPodInfo pi1.initContainers kubePodInfo.spec.initContainers
            invalidateExistingAnnotations,
        runningContainers :=
          addContainersToPodInfo pi1.runningContainers kubePodInfo.spec.containers
            invalidateExistingAnnotations }
      let pi3 := if invalidateExistingAnnotations then { pi2 with nodeName := "" } else pi2
      Except.ok pi3

/-- `PodInfoToAnnotation` (kubeinterface.go:129): marshal the pod info and
store it under the reserved key, materializing a nil annotations map. -/
def PodInfoToAnnotation (meta : ObjectMeta) (podInfo : PodInfo) : ObjectMeta :=
  let anns := meta.annotations.getD []
  { meta with
    annotations := some (Smap.insert anns deviceInfoKey (AnnVal.podJson podInfo)) }

/-- Go map `delete(m, k)`. -/
def Smap.erase {β : Type} : Smap β → String → Smap β
  | [], _ => []
  | (k', v') :: t, k => if k' = k then t else (k', v') :: Smap.erase t k

/-- Modelled from the spec (§4.3): the per-field diff of a scalar-merged
field under `strategicpatch.CreateTwoWayMergePatch` — replace on
difference, omit when equal. -/
def fieldDiff {α : Type} [DecidableEq α] (o n : α) : Option α :=
  if o = n then none else some n

/-- Modelled from the spec (§4.3): the key-wise diff of a map-merged field
— changed or added keys carry the new value, removed keys carry a
deletion marker. -/
def Smap.diff {β : Type} [DecidableEq β] (o n : Smap β) : Smap (Option β) :=
  (n.filter fun kv => decide (Smap.lookup o kv.1 ≠ some kv.2)).map
      (fun kv => (kv.1, some kv.2))
    ++ (o.filter fun kv => (Smap.lookup n kv.1).isNone).map (fun kv => (kv.1, none))

/-- Modelled from the spec (§4.3/§5): merge-semantics application of a
key-wise map diff to the remote copy of the field. -/
def Smap.applyDiff {β : Type} (m : Smap β) (d : Smap (Option β)) : Smap β :=
  d.foldl
    (fun acc kv =>
      match kv.2 with
      | some v => Smap.insert acc kv.1 v
      | none => Smap.erase acc kv.1)
    m

/-- Modelled from the spec (§4.3): the diff of a map-merged field as a
whole — omitted when equal, a key-wise diff otherwise. -/
def mapFieldDiff {β : Type} [DecidableEq β] (o n : Smap β) : Option (Smap (Option β)) :=
  if o = n then none else some (Smap.diff o n)

/-- The part of a strategic merge patch that touches `metav1.ObjectMeta`:
an omitted (`none`) field is not mentioned by the patch document. -/
structure ObjectMetaPatch where
  name : Option String
  nspace : Option String
  labels : Option (Smap (Option String))
  annotations : Option (Smap (Option AnnVal))
  deriving DecidableEq, Repr

/-- Modelled from the spec (§4.3): diff of the metadata section. -/
def buildMetaPatch (o n : ObjectMeta) : ObjectMetaPatch :=
  { name := fieldDiff o.name n.name
    nspace := fieldDiff o.nspace n.nspace
    labels := mapFieldDiff o.labels n.labels
    annotations :=
      if o.annotations = n.annotations then none
      else some (Smap.diff (o.annotations.getD []) (n.annotations.getD [])) }

/-- Modelled from the spec (§4.3/§5): merge-semantics application of a
metadata patch to the remote copy. -/
def applyMetaPatch (m : ObjectMeta) (p : ObjectMetaPatch) : ObjectMeta :=
  { name := p.name.getD m.name
    nspace := p.nspace.getD m.nspace
    labels :=
      match p.labels with
      | none => m.labels
      | some d => Smap.applyDiff m.labels d
    annotations :=
      match p.annotations with
      | none => m.annotations
      | some d => some (Smap.applyDiff (m.annotations.getD []) d) }

/-- A strategic merge patch document against the `kubev1.Node` schema. -/
structure NodePatch where
  meta : ObjectMetaPatch
  spec : Option NodeSpec
  statusCapacity : Option (Smap (Option Int))
  statusAllocatable : Option (Smap (Option Int))
  deriving DecidableEq, Repr

/-- Modelled from the spec (§4.3): `strategicpatch.CreateTwoWayMergePatch`
against the `kubev1.Node{}` schema. -/
def buildNodePatch (o n : Node) : NodePatch :=
  { meta := buildMetaPatch o.meta n.meta
    spec := fieldDiff o.spec n.spec
    statusCapacity := mapFieldDiff o.status.capacity n.status.capacity
    statusAllocatable := mapFieldDiff o.status.allocatable n.status.allocatable }

/-- Modelled from the spec (§4.3/§5): application of a node patch to the
remote object. -/
def applyNodePatch (r : Node) (p : NodePatch) : Node :=
  { meta := applyMetaPatch r.meta p.meta
    spec := p.spec.getD r.spec
    status :=
      { capacity :=
          match p.statusCapacity with
          | none => r.status.capacity
          | some d => Smap.applyDiff r.status.capacity d
        allocatable :=
          match p.statusAllocatable with
          | none => r.status.allocatable
          | some d => Smap.applyDiff r.status.allocatable d } }

/-- A strategic merge patch document against the `kubev1.Pod` schema. -/
structure PodPatch where
  meta : ObjectMetaPatch
  spec : Option PodSpec
  status : Option PodStatus
  deriving DecidableEq, Repr

/-- Modelled from the spec (§4.3): `strategicpatch.CreateTwoWayMergePatch`
against the `kubev1.Pod{}` schema. -/
def buildPodPatch (o n : Pod) : PodPatch :=
  { meta := buildMetaPatch o.meta n.meta
    spec := fieldDiff o.spec n.spec
    status := fieldDiff o.status n.status }

/-- Modelled from the spec (§4.3/§5): application of a pod patch to the
remote object. -/
def applyPodPatch (r : Pod) (p : PodPatch) : Pod :=
  { meta := applyMetaPatch r.meta p.meta
    spec := p.spec.getD r.spec
    status := p.status.getD r.status }

/-- `GetPatchBytes` (kubeinterface.go:145) for nodes: marshal old and new
and build the two-way merge patch.  Marshalling of the embedded objects
cannot fail, so only the `ok` branch is reachable. -/
def GetPatchBytes (resourceName : String) (old new' : Node) : Except String NodePatch :=
  Except.ok (buildNodePatch old new')

/-- `GetPatchBytes` for pods (same source function at the `Pod` type). -/
def GetPodPatchBytes (resourceName : String) (old new' : Pod) : Except String PodPatch :=
  Except.ok (buildPodPatch old new')

/-- The sub-resource targeted by a `Patch` call: `Patch(name, pt, bytes)`
targets the default sub-resource, `Patch(name, pt, bytes, "status")` the
status sub-resource. -/
inductive SubRes where
  | defaultSub
  | statusSub
  deriving DecidableEq, Repr

/-- One `Patch` call issued to the remote store. -/
structure StoreCall where
  sub : SubRes
  doc : NodePatch
  deriving DecidableEq, Repr

/-- The error text of `PatchNodeMetadata` (kubeinterface.go:172/180): the
failing sub-resource determines the message (the `%q` dump of the patch
bytes is elided). -/
def nodePatchFailMsg (sub : SubRes) (nodeName e : String) : String :=
  match sub with
  | SubRes.defaultSub => "failed to patch metadata for node " ++ nodeName ++ ": " ++ e
  | SubRes.statusSub => "failed to patch status for node " ++ nodeName ++ ": " ++ e

/-- `PatchNodeMetadata` (kubeinterface.go:163).  The remote store is the
interface collaborator of §6, embedded as the function `applyAtStore`;
the returned list records, in order, the `Patch` calls issued. -/
def PatchNodeMetadata (applyAtStore : SubRes → NodePatch → Except String Node)
    (nodeName : String) (oldNode newNode : Node) :
    List StoreCall × Except String Node :=
  match GetPatchBytes nodeName oldNode newNode with
  | Except.error e => ([], Except.error e)
  | Except.ok patchBytes =>
      match applyAtStore SubRes.defaultSub patchBytes with
      | Except.error e =>
          ([{ sub := SubRes.defaultSub, doc := patchBytes }],
            Except.error (nodePatchFailMsg SubRes.defaultSub nodeName e))
      | Except.ok _ =>
          match applyAtStore SubRes.statusSub patchBytes with
          | Except.error e =>
              ([{ sub := SubRes.defaultSub, doc := patchBytes },
                { sub := SubRes.statusSub, doc := patchBytes }],
                Except.error (nodePatchFailMsg SubRes.statusSub nodeName e))
          | Except.ok updatedNode =>
              ([{ sub := SubRes.defaultSub, doc := patchBytes },
                { sub := SubRes.statusSub, doc := patchBytes }],
                Except.ok updatedNode)

/-- The error text of `PatchPodMetadata` (kubeinterface.go:197). -/
def podPatchFailMsg (podName e : String) : String :=
  "failed topatch metadata for pod " ++ podName ++ ": " ++ e

/-- `PatchPodMetadata` (kubeinterface.go:189): builds the patch and issues
a single `Patch` call against the default sub-resource (no status call). -/
def PatchPodMetadata (applyAtStore : SubRes → PodPatch → Except String Pod)
    (podName : String) (oldPod newPod : Pod) :
    List (SubRes × PodPatch) × Except String Pod :=
  match GetPodPatchBytes podName oldPod newPod with
  | Except.error e => ([], Except.error e)
  | Except.ok patchBytes =>
      match applyAtStore SubRes.defaultSub patchBytes with
      | Except.error e =>
          ([(SubRes.defaultSub, patchBytes)],
            Except.error (podPatchFailMsg podName e))
      | Except.ok updatedPod => ([(SubRes.defaultSub, patchBytes)], Except.ok updatedPod)

/-- The error text of the identity check of `UpdatePodMetadata`
(kubeinterface.go:214), metadata dumps elided. -/
def newPodMismatchErr : String := "new pod does not match old"

/-- `UpdatePodMetadata` (kubeinterface.go:204): fetch the live pod by the
desired pod's namespace and name, verify identity, clone the live pod,
overwrite only its annotations with the desired ones, and submit the
clone as a full update.  `podsGet` and `podsUpdate` are the store
collaborator of §6; the pod handed to `podsUpdate` is the full object
submitted. -/
def UpdatePodMetadata (podsGet : String → String → Except String Pod)
    (podsUpdate : Pod → Except String Pod) (newPod : Pod) : Except String Pod :=
  match podsGet newPod.meta.nspace newPod.meta.name with
  | Except.error e => Except.error e
  | Except.ok oldPod =>
      if newPod.meta.name ≠ oldPod.meta.name ∨ newPod.meta.nspace ≠ oldPod.meta.nspace then
        Except.error newPodMismatchErr
      else
        podsUpdate
          { oldPod with meta := { oldPod.meta with annotations := newPod.meta.annotations } }

/-! ### Lemmas about the map embedding -/

theorem Smap.lookup_insert_self {β : Type} (m : Smap β) (k : String) (v : β) :
    Smap.lookup (Smap.insert m k v) k = some v := by
  induction m with
  | nil => simp [Smap.insert, Smap.lookup]
  | cons kv t ih =>
      obtain ⟨k', v'⟩ := kv
      by_cases h : k' = k
      · simp [Smap.insert, h, Smap.lookup]
      · simp [Smap.insert, h, Smap.lookup, ih]

theorem Smap.lookup_insert_ne {β : Type} (m : Smap β) (k' k : String) (v : β)
    (h : k' ≠ k) : Smap.lookup (Smap.insert m k' v) k = Smap.lookup m k := by
  induction m with
  | nil => simp [Smap.insert, Smap.lookup, h]
  | cons kv t ih =>
      obtain ⟨k0, v0⟩ := kv
      by_cases h0 : k0 = k'
      · simp [Smap.insert, h0, Smap.lookup, h]
      · by_cases h1 : k0 = k
        · simp [Smap.insert, h0, Smap.lookup, h1, Ne.symm h]
        · simp [Smap.insert, h0, Smap.lookup, h1, ih]

theorem Smap.insert_eq_of_lookup {β : Type} (m : Smap β) (k : String) (v : β)
    (h : Smap.lookup m k = some v) : Smap.insert m k v = m := by
  induction m with
  | nil => simp [Smap.lookup] at h
  | cons kv t ih =>
      obtain ⟨k0, v0⟩ := kv
      by_cases h0 : k0 = k
      · simp [Smap.lookup, h0] at h
        simp [Smap.insert, h0, h]
      · simp [Smap.lookup, h0] at h
        simp [Smap.insert, h0, ih h]

theorem Smap.lookup_eq_none_iff {β : Type} (m : Smap β) (k : String) :
    Smap.lookup m k = none ↔ k ∉ Smap.keys m := by
  induction m with
  | nil => simp [Smap.lookup, Smap.keys]
  | cons kv t ih =>
      obtain ⟨k0, v0⟩ := kv
      by_cases h0 : k0 = k
      · simp [Smap.lookup, h0, Smap.keys]
      · simp [Smap.lookup, h0, Smap.keys, Ne.symm h0] at ih ⊢
        exact ih

theorem Smap.lookup_eq_of_mem_wf {β : Type} (m : Smap β) (kv : String × β)
    (hwf : Smap.WF m) (hmem : kv ∈ m) : Smap.lookup m kv.1 = some kv.2 := by
  induction m with
  | nil => simp at hmem
  | cons x t ih =>
      obtain ⟨k0, v0⟩ := x
      simp only [Smap.WF, Smap.keys, List.map_cons, List.nodup_cons] at hwf
      rcases List.mem_cons.mp hmem with h | h
      · subst h
        simp [Smap.lookup]
      · have hk : k0 ≠ kv.1 := by
          intro he
          exact hwf.1 (he ▸ (List.mem_map.mpr ⟨kv, h, rfl⟩))
        simp only [Smap.lookup, hk, if_false]
        exact ih hwf.2 h

theorem Smap.lookup_mergeInto_of_none {β : Type} (src dst : Smap β) (k : String)
    (h : Smap.lookup src k = none) :
    Smap.lookup (Smap.mergeInto src dst) k = Smap.lookup dst k := by
  induction src generalizing dst with
  | nil => simp [Smap.mergeInto]
  | cons kv t ih =>
      obtain ⟨k0, v0⟩ := kv
      by_cases h0 : k0 = k
      · simp [Smap.lookup, h0] at h
      · simp only [Smap.lookup, h0, if_false] at h
        simp only [Smap.mergeInto, List.foldl_cons]
        have := ih (Smap.insert dst k0 v0) h
        simp only [Smap.mergeInto] at this
        rw [this, Smap.lookup_insert_ne dst k0 k v0 h0]

theorem Smap.lookup_mergeInto_of_some {β : Type} (src dst : Smap β) (k : String) (v : β)
    (hwf : Smap.WF src) (h : Smap.lookup src k = some v) :
    Smap.lookup (Smap.mergeInto src dst) k = some v := by
  induction src generalizing dst with
  | nil => simp [Smap.lookup] at h
  | cons kv t ih =>
      obtain ⟨k0, v0⟩ := kv
      simp only [Smap.WF, Smap.keys, List.map_cons, List.nodup_cons] at hwf
      simp only [Smap.mergeInto, List.foldl_cons]
      by_cases h0 : k0 = k
      · simp only [Smap.lookup, h0, if_true] at h
        have hnone : Smap.lookup t k = none := by
          rw [Smap.lookup_eq_none_iff]
          exact h0 ▸ hwf.1
        have := Smap.lookup_mergeInto_of_none t (Smap.insert dst k0 v0) k hnone
        simp only [Smap.mergeInto] at this
        rw [this, h0, Smap.lookup_insert_self, h]
      · simp only [Smap.lookup, h0, if_false] at h
        have := ih (Smap.insert dst k0 v0) hwf.2 h
        simp only [Smap.mergeInto] at this
        exact this

theorem Smap.mergeInto_eq_of_lookup {β : Type} (src dst : Smap β)
    (h : ∀ kv ∈ src, Smap.lookup dst kv.1 = some kv.2) :
    Smap.mergeInto src dst = dst := by
  induction src generalizing dst with
  | nil => simp [Smap.mergeInto]
  | cons kv t ih =>
      obtain ⟨k0, v0⟩ := kv
      simp only [Smap.mergeInto, List.foldl_cons]
      have h0 : Smap.lookup dst k0 = some v0 := h (k0, v0) (List.mem_cons_self _ _)
      rw [Smap.insert_eq_of_lookup dst k0 v0 h0]
      exact ih dst fun kv hkv => h kv (List.mem_cons_of_mem _ hkv)

theorem Smap.lookup_mergeInto_mem {β : Type} (src dst : Smap β) (kv : String × β)
    (hwf : Smap.WF src) (hmem : kv ∈ src) :
    Smap.lookup (Smap.mergeInto src dst) kv.1 = some kv.2 :=
  Smap.lookup_mergeInto_of_some src dst kv.1 kv.2 hwf
    (Smap.lookup_eq_of_mem_wf src kv hwf hmem)

theorem Smap.lookup_mapVal {β : Type} (f : β → β) (m : Smap β) (k : String) :
    Smap.lookup (Smap.mapVal f m) k = (Smap.lookup m k).map f := by
  induction m with
  | nil => simp [Smap.mapVal, Smap.lookup]
  | cons kv t ih =>
      obtain ⟨k0, v0⟩ := kv
      by_cases h0 : k0 = k
      · simp [Smap.mapVal, Smap.lookup, h0]
      · simp only [Smap.mapVal] at ih
        simp [Smap.mapVal, Smap.lookup, h0, ih]

theorem Smap.mapVal_mapVal {β : Type} (f : β → β) (m : Smap β)
    (hf : ∀ b, f (f b) = f b) :
    Smap.mapVal f (Smap.mapVal f m) = Smap.mapVal f m := by
  induction m with
  | nil => simp [Smap.mapVal]
  | cons kv t ih =>
      simp only [Smap.mapVal, List.map_cons] at ih ⊢
      rw [ih]
      simp [hf]

/-! ### Claim theorems -/

/-- **C5**: for every object metadata whose annotations map is nil or
lacks the reserved "KubeDevice/DeviceInfo" key, decoding — via
`AnnotationToNodeInfo` with nil existing model, and via
`KubePodInfoToPodInfo` on a pod that declares no containers — returns the
freshly-initialized, empty, non-nil model (only the name is taken from
the object's own metadata) and no error. -/
theorem missing_annotation_decode_empty
    (meta : ObjectMeta) (pod : Pod) (invalidate : Bool)
    (hmeta : meta.annotations = none ∨
      ∃ a, meta.annotations = some a ∧ Smap.lookup a deviceInfoKey = none)
    (hpod : pod.meta.annotations = none ∨
      ∃ a, pod.meta.annotations = some a ∧ Smap.lookup a deviceInfoKey = none)
    (hinit : pod.spec.initContainers = []) (hrun : pod.spec.containers = []) :
    AnnotationToNodeInfo meta none = Except.ok { NewNodeInfo with name := meta.name } ∧
    KubePodInfoToPodInfo pod invalidate = Except.ok { NewPodInfo with name := pod.meta.name } := by
  have hdn : decodeNodeAnn meta = Except.ok NewNodeInfo := by
    rcases hmeta with h | ⟨a, ha, hk⟩
    · simp [decodeNodeAnn, h]
    · simp [decodeNodeAnn, ha, hk]
  have hdp : decodePodAnn pod.meta = Except.ok NewPodInfo := by
    rcases hpod with h | ⟨a, ha, hk⟩
    · simp [decodePodAnn, h]
    · simp [decodePodAnn, ha, hk]
  have ht : trimSpace NewNodeInfo.name = "" := rfl
  constructor
  · simp [AnnotationToNodeInfo, hdn, ht]
  · cases invalidate <;>
      simp [KubePodInfoToPodInfo, hdp, hinit, hrun, addContainersToPodInfo,
        Smap.mapVal, NewPodInfo]

/-- **C9**: for every object metadata whose reserved annotation is
present but not a valid serialized model, decoding (`AnnotationToNodeInfo`
and `KubePodInfoToPodInfo`) returns a non-nil error instead of ignoring
the malformed value or returning a model. -/
theorem malformed_annotation_decode_error
    (meta : ObjectMeta) (ex : Option NodeInfo) (pod : Pod) (inv : Bool)
    (a pa : Smap AnnVal) (s s' : String)
    (hm : meta.annotations = some a)
    (hk : Smap.lookup a deviceInfoKey = some (AnnVal.malformed s))
    (hp : pod.meta.annotations = some pa)
    (hpk : Smap.lookup pa deviceInfoKey = some (AnnVal.malformed s')) :
    AnnotationToNodeInfo meta ex = Except.error (unmarshalErr s) ∧
    KubePodInfoToPodInfo pod inv = Except.error (unmarshalErr s') := by
  constructor
  · simp [AnnotationToNodeInfo, decodeNodeAnn, hm, hk, unmarshalNodeInfo]
  · simp [KubePodInfoToPodInfo, decodePodAnn, hp, hpk, unmarshalPodInfo]

/-- **C10**: encoding (`NodeInfoToAnnotation` and `PodInfoToAnnotation`)
writes only the reserved "KubeDevice/DeviceInfo" key into the annotations
map: every other pre-existing annotation key keeps its value, the other
metadata fields are untouched, and a nil annotations map is materialized
(the result is non-nil). -/
theorem encode_touches_only_reserved_key
    (meta pmeta : ObjectMeta) (ni : NodeInfo) (pinfo : PodInfo) :
    (( NodeInfoToAnnotation meta ni).name = meta.name ∧
      ( NodeInfoToAnnotation meta ni).nspace = meta.nspace ∧
      ( NodeInfoToAnnotation meta ni).labels = meta.labels ∧
      ∃ a, ( NodeInfoToAnnotation meta ni).annotations = some a ∧
        Smap.lookup a deviceInfoKey = some (AnnVal.nodeJson ni) ∧
        ∀ k, k ≠ deviceInfoKey →
          Smap.lookup a k = Smap.lookup (meta.annotations.getD []) k) ∧
    (( PodInfoToAnnotation pmeta pinfo).name = pmeta.name ∧
      ( PodInfoToAnnotation pmeta pinfo).nspace = pmeta.nspace ∧
      ( PodInfoToAnnotation pmeta pinfo).labels = pmeta.labels ∧
      ∃ a, ( PodInfoToAnnotation pmeta pinfo).annotations = some a ∧
        Smap.lookup a deviceInfoKey = some (AnnVal.podJson pinfo) ∧
        ∀ k, k ≠ deviceInfoKey →
          Smap.lookup a k = Smap.lookup (pmeta.annotations.getD []) k) := by
  refine ⟨⟨rfl, rfl, rfl, ?_⟩, ⟨rfl, rfl, rfl, ?_⟩⟩
  · refine ⟨_, rfl, Smap.lookup_insert_self _ _ _, fun k hk => ?_⟩
    exact Smap.lookup_insert_ne _ _ _ _ (Ne.symm hk)
  · refine ⟨_, rfl, Smap.lookup_insert_self _ _ _, fun k hk => ?_⟩
    exact Smap.lookup_insert_ne _ _ _ _ (Ne.symm hk)

theorem lookup_addContainers_invalidate
    (m : Smap ContainerInfo) (conts : List KContainer) (n : String) (ci : ContainerInfo)
    (h : Smap.lookup (addContainersToPodInfo m conts true) n = some ci) :
    ci.allocateFrom = [] ∧ ci.devRequests = Smap.copy ci.requests := by
  simp only [addContainersToPodInfo, if_true] at h
  rw [Smap.lookup_mapVal] at h
  cases hl : Smap.lookup (conts.foldl addOneContainer m) n with
  | none => rw [hl] at h; simp at h
  | some ci' =>
      rw [hl] at h
      simp only [Option.map_some', Option.some.injEq] at h
      subst h
      exact ⟨rfl, rfl⟩

/-- **C3**: `KubePodInfoToPodInfo` with `invalidate = true` yields a
`PodInfo` in which every container of the returned init- and
running-container maps has an empty `AllocateFrom` and a `DevRequests`
that is the key-wise copy of its `Requests`, and whose `NodeName` is
empty. -/
theorem invalidate_resets_allocations
    (pod : Pod) (podInfo : PodInfo)
    (h : KubePodInfoToPodInfo pod true = Except.ok podInfo) :
    podInfo.nodeName = "" ∧
    (∀ n ci, Smap.lookup podInfo.initContainers n = some ci →
        ci.allocateFrom = [] ∧ ci.devRequests = Smap.copy ci.requests) ∧
    (∀ n ci, Smap.lookup podInfo.runningContainers n = some ci →
        ci.allocateFrom = [] ∧ ci.devRequests = Smap.copy ci.requests) := by
  cases hd : decodePodAnn pod.meta with
  | error e => simp [KubePodInfoToPodInfo, hd] at h
  | ok pi0 =>
      simp only [KubePodInfoToPodInfo, hd, if_true, Except.ok.injEq] at h
      subst h
      refine ⟨rfl, ?_, ?_⟩
      · intro n ci hci
        exact lookup_addContainers_invalidate _ _ _ _ hci
      · intro n ci hci
        exact lookup_addContainers_invalidate _ _ _ _ hci

/-- **C1**: for every node metadata and existing `NodeInfo` with non-empty
`Used`, the `NodeInfo` returned by `AnnotationToNodeInfo` maps every key
of `existing.Used` to `existing`'s value (overwriting the freshly decoded
value on collision), and every key present only in the freshly decoded
`Used` keeps its decoded value (the fresh decode being the result with no
existing model supplied). -/
theorem reconcile_merge_prefers_existing
    (meta : ObjectMeta) (ex ri di : NodeInfo)
    (hwf : Smap.WF ex.used) (hne : ex.used ≠ [])
    (hr : AnnotationToNodeInfo meta (some ex) = Except.ok ri)
    (hd : AnnotationToNodeInfo meta none = Except.ok di) :
    (∀ k v, Smap.lookup ex.used k = some v → Smap.lookup ri.used k = some v) ∧
    (∀ k, Smap.lookup ex.used k = none →
        Smap.lookup ri.used k = Smap.lookup di.used k) := by
  cases hdec : decodeNodeAnn meta with
  | error e => simp [AnnotationToNodeInfo, hdec] at hr
  | ok ni0 =>
      simp only [AnnotationToNodeInfo, hdec, Except.ok.injEq] at hr hd
      subst hr
      subst hd
      constructor
      · intro k v hk
        exact Smap.lookup_mergeInto_of_some _ _ k v hwf hk
      · intro k hk
        exact Smap.lookup_mergeInto_of_none _ _ k hk

/-- **C6**: `UpdatePodMetadata` fails with the identity-mismatch error
whenever the desired pod's name or namespace differs from the live pod
fetched from the store, and on success the full object it submits to the
store is the fetched live pod with only its metadata annotations replaced
by the desired pod's annotations. -/
theorem updatePodMetadata_identity_and_frame
    (podsGet : String → String → Except String Pod)
    (podsUpdate : Pod → Except String Pod) (newPod live : Pod)
    (hget : podsGet newPod.meta.nspace newPod.meta.name = Except.ok live) :
    ((newPod.meta.name ≠ live.meta.name ∨ newPod.meta.nspace ≠ live.meta.nspace) →
        UpdatePodMetadata podsGet podsUpdate newPod = Except.error newPodMismatchErr) ∧
    (newPod.meta.name = live.meta.name → newPod.meta.nspace = live.meta.nspace →
        UpdatePodMetadata podsGet podsUpdate newPod =
          podsUpdate
            { live with meta := { live.meta with annotations := newPod.meta.annotations } }) := by
  constructor
  · intro hmm
    simp only [UpdatePodMetadata, hget]
    rw [if_pos hmm]
  · intro h1 h2
    simp only [UpdatePodMetadata, hget]
    rw [if_neg (by simp [h1, h2])]

/-- **C2**: encoding a well-formed private model into object metadata and
decoding that metadata yields the model back.  For a `NodeInfo`,
well-formed means the name is not all whitespace (otherwise decode
defaults it to the object's name); for a `PodInfo`, the pod carrying the
metadata declares no spec containers (the claim is about the codec, not
the spec reconciliation) and its metadata name agrees with the model. -/
theorem encode_decode_roundtrip
    (meta pmeta : ObjectMeta) (M : NodeInfo) (P : PodInfo) (pod : Pod)
    (hMname : trimSpace M.name ≠ "")
    (hpodmeta : pod.meta = PodInfoToAnnotation pmeta P)
    (hpname : pmeta.name = P.name)
    (hinit : pod.spec.initContainers = []) (hconts : pod.spec.containers = []) :
    AnnotationToNodeInfo ( NodeInfoToAnnotation meta M) none = Except.ok M ∧
    KubePodInfoToPodInfo pod false = Except.ok P := by
  constructor
  · have hdec : decodeNodeAnn ( NodeInfoToAnnotation meta M) = Except.ok M := by
      simp [decodeNodeAnn, NodeInfoToAnnotation, Smap.lookup_insert_self, unmarshalNodeInfo]
    simp [AnnotationToNodeInfo, hdec, hMname]
  · have hdec : decodePodAnn pod.meta = Except.ok P := by
      simp [decodePodAnn, hpodmeta, PodInfoToAnnotation, Smap.lookup_insert_self,
        unmarshalPodInfo]
    simp only [KubePodInfoToPodInfo, hdec]
    simp [hinit, hconts, addContainersToPodInfo, hpodmeta, PodInfoToAnnotation, hpname]

/-- **C7**: the metadata-and-status patch operation (`PatchNodeMetadata`)
builds one patch document from old and new and applies those identical
bytes exactly twice — first against the default sub-resource, then
against the status sub-resource; a failure of either application is
returned as an error whose message identifies the failing sub-resource
(the two messages can never coincide), and a successful first application
is not rolled back (the call trace after a status failure still ends with
exactly the two patch applications, no compensating call). -/
theorem patchNodeMetadata_one_doc_two_applications
    (applyAtStore : SubRes → NodePatch → Except String Node)
    (nodeName : String) (oldNode newNode : Node) :
    (∀ e, applyAtStore SubRes.defaultSub (buildNodePatch oldNode newNode) = Except.error e →
        PatchNodeMetadata applyAtStore nodeName oldNode newNode =
          ([{ sub := SubRes.defaultSub, doc := buildNodePatch oldNode newNode }],
            Except.error (nodePatchFailMsg SubRes.defaultSub nodeName e))) ∧
    (∀ n1 e, applyAtStore SubRes.defaultSub (buildNodePatch oldNode newNode) = Except.ok n1 →
        applyAtStore SubRes.statusSub (buildNodePatch oldNode newNode) = Except.error e →
        PatchNodeMetadata applyAtStore nodeName oldNode newNode =
          ([{ sub := SubRes.defaultSub, doc := buildNodePatch oldNode newNode },
            { sub := SubRes.statusSub, doc := buildNodePatch oldNode newNode }],
            Except.error (nodePatchFailMsg SubRes.statusSub nodeName e))) ∧
    (∀ n1 n2, applyAtStore SubRes.defaultSub (buildNodePatch oldNode newNode) = Except.ok n1 →
        applyAtStore SubRes.statusSub (buildNodePatch oldNode newNode) = Except.ok n2 →
        PatchNodeMetadata applyAtStore nodeName oldNode newNode =
          ([{ sub := SubRes.defaultSub, doc := buildNodePatch oldNode newNode },
            { sub := SubRes.statusSub, doc := buildNodePatch oldNode newNode }],
            Except.ok n2)) ∧
    (∀ nm nm' e e',
        nodePatchFailMsg SubRes.defaultSub nm e ≠ nodePatchFailMsg SubRes.statusSub nm' e') := by
  refine ⟨?_, ?_, ?_, ?_⟩
  · intro e h1
    simp [PatchNodeMetadata, GetPatchBytes, h1]
  · intro n1 e h1 h2
    simp [PatchNodeMetadata, GetPatchBytes, h1, h2]
  · intro n1 n2 h1 h2
    simp [PatchNodeMetadata, GetPatchBytes, h1, h2]
  · intro nm nm' e e' h
    have hd := congrArg String.data h
    simp only [nodePatchFailMsg, String.data_append, List.append_assoc] at hd
    have h1 : ("failed to patch metadata for node ".data ++
        (nm.data ++ (": ".data ++ e.data)))[16]? = some 'm' := by
      rw [List.getElem?_append_left (by decide)]
      decide
    have h2 : ("failed to patch status for node ".data ++
        (nm'.data ++ (": ".data ++ e'.data)))[16]? = some 's' := by
      rw [List.getElem?_append_left (by decide)]
      decide
    rw [hd, h2] at h1
    simp at h1

/-- **C8**: for every pair of node objects and every pair of pod objects
that differ only in their metadata annotations, the patch document
produced by `GetPatchBytes` mentions only the annotations field — every
sibling field of the patch is omitted — so applying it to any remote
object leaves every sibling field of that object unchanged. -/
theorem patch_minimal_annotations_only
    (nodeNm : String) (o n : Node) (po pn : Pod)
    (hname : o.meta.name = n.meta.name) (hns : o.meta.nspace = n.meta.nspace)
    (hlab : o.meta.labels = n.meta.labels) (hspec : o.spec = n.spec)
    (hst : o.status = n.status)
    (hpname : po.meta.name = pn.meta.name) (hpns : po.meta.nspace = pn.meta.nspace)
    (hplab : po.meta.labels = pn.meta.labels) (hpspec : po.spec = pn.spec)
    (hpst : po.status = pn.status) :
    (GetPatchBytes nodeNm o n = Except.ok (buildNodePatch o n) ∧
      (buildNodePatch o n).meta.name = none ∧
      (buildNodePatch o n).meta.nspace = none ∧
      (buildNodePatch o n).meta.labels = none ∧
      (buildNodePatch o n).spec = none ∧
      (buildNodePatch o n).statusCapacity = none ∧
      (buildNodePatch o n).statusAllocatable = none ∧
      ∀ r, (applyNodePatch r (buildNodePatch o n)).meta.name = r.meta.name ∧
        (applyNodePatch r (buildNodePatch o n)).meta.nspace = r.meta.nspace ∧
        (applyNodePatch r (buildNodePatch o n)).meta.labels = r.meta.labels ∧
        (applyNodePatch r (buildNodePatch o n)).spec = r.spec ∧
        (applyNodePatch r (buildNodePatch o n)).status = r.status) ∧
    ((buildPodPatch po pn).meta.name = none ∧
      (buildPodPatch po pn).meta.nspace = none ∧
      (buildPodPatch po pn).meta.labels = none ∧
      (buildPodPatch po pn).spec = none ∧
      (buildPodPatch po pn).status = none ∧
      ∀ r, (applyPodPatch r (buildPodPatch po pn)).meta.name = r.meta.name ∧
        (applyPodPatch r (buildPodPatch po pn)).meta.nspace = r.meta.nspace ∧
        (applyPodPatch r (buildPodPatch po pn)).meta.labels = r.meta.labels ∧
        (applyPodPatch r (buildPodPatch po pn)).spec = r.spec ∧
        (applyPodPatch r (buildPodPatch po pn)).status = r.status) := by
  have hmn : (buildNodePatch o n).meta.name = none := by
    simp [buildNodePatch, buildMetaPatch, fieldDiff, hname]
  have hmns : (buildNodePatch o n).meta.nspace = none := by
    simp [buildNodePatch, buildMetaPatch, fieldDiff, hns]
  have hml : (buildNodePatch o n).meta.labels = none := by
    simp [buildNodePatch, buildMetaPatch, mapFieldDiff, hlab]
  have hpmn : (buildPodPatch po pn).meta.name = none := by
    simp [buildPodPatch, buildMetaPatch, fieldDiff, hpname]
  have hpmns : (buildPodPatch po pn).meta.nspace = none := by
    simp [buildPodPatch, buildMetaPatch, fieldDiff, hpns]
  have hpml : (buildPodPatch po pn).meta.labels = none := by
    simp [buildPodPatch, buildMetaPatch, mapFieldDiff, hplab]
  have hsp : (buildNodePatch o n).spec = none := by
    simp [buildNodePatch, fieldDiff, hspec]
  have hsc : (buildNodePatch o n).statusCapacity = none := by
    simp [buildNodePatch, mapFieldDiff, hst]
  have hsa : (buildNodePatch o n).statusAllocatable = none := by
    simp [buildNodePatch, mapFieldDiff, hst]
  have hpsp : (buildPodPatch po pn).spec = none := by
    simp [buildPodPatch, fieldDiff, hpspec]
  have hpst' : (buildPodPatch po pn).status = none := by
    simp [buildPodPatch, fieldDiff, hpst]
  refine ⟨⟨rfl, hmn, hmns, hml, hsp, hsc, hsa, fun r => ?_⟩,
    ⟨hpmn, hpmns, hpml, hpsp, hpst', fun r => ?_⟩⟩
  · refine ⟨?_, ?_, ?_, ?_, ?_⟩ <;>
      simp [applyNodePatch, applyMetaPatch, buildNodePatch, buildMetaPatch, fieldDiff,
        mapFieldDiff, hname, hns, hlab, hspec, hst]
  · refine ⟨?_, ?_, ?_, ?_, ?_⟩ <;>
      simp [applyPodPatch, applyMetaPatch, buildPodPatch, buildMetaPatch, fieldDiff,
        mapFieldDiff, hpname, hpns, hplab, hpspec, hpst]

theorem lookup_foldl_addOne_notmem (conts : List KContainer) (m : Smap ContainerInfo)
    (k : String) (hk : k ∉ conts.map KContainer.name) :
    Smap.lookup (conts.foldl addOneContainer m) k = Smap.lookup m k := by
  induction conts generalizing m with
  | nil => rfl
  | cons c cs ih =>
      simp only [List.map_cons, List.mem_cons, not_or] at hk
      simp only [List.foldl_cons]
      rw [ih (addOneContainer m c) hk.2]
      simp only [addOneContainer]
      exact Smap.lookup_insert_ne m c.name k _ (Ne.symm hk.1)

theorem addOneContainer_eq_of_fixed (m : Smap ContainerInfo) (c : KContainer)
    (cont : ContainerInfo) (hl : Smap.lookup m c.name = some cont)
    (hm : Smap.mergeInto c.requests cont.kubeRequests = cont.kubeRequests) :
    addOneContainer m c = m := by
  simp only [addOneContainer, hl, Option.getD_some, FillContainerInfo, hm]
  exact Smap.insert_eq_of_lookup m c.name cont hl

theorem foldl_addOne_id (conts : List KContainer) (m : Smap ContainerInfo)
    (h : ∀ c ∈ conts, ∃ cont, Smap.lookup m c.name = some cont ∧
        Smap.mergeInto c.requests cont.kubeRequests = cont.kubeRequests) :
    conts.foldl addOneContainer m = m := by
  induction conts with
  | nil => rfl
  | cons c cs ih =>
      obtain ⟨cont, hl, hm⟩ := h c (List.mem_cons_self c cs)
      simp only [List.foldl_cons, addOneContainer_eq_of_fixed m c cont hl hm]
      exact ih fun c' hc' => h c' (List.mem_cons_of_mem c hc')

theorem foldl_addOne_establishes (conts : List KContainer) (m : Smap ContainerInfo)
    (hnames : (conts.map KContainer.name).Nodup)
    (hreq : ∀ c ∈ conts, Smap.WF c.requests) :
    ∀ c ∈ conts, ∃ cont,
        Smap.lookup (conts.foldl addOneContainer m) c.name = some cont ∧
        Smap.mergeInto c.requests cont.kubeRequests = cont.kubeRequests := by
  induction conts generalizing m with
  | nil => intro c hc; simp at hc
  | cons c0 cs ih =>
      intro c hc
      simp only [List.map_cons, List.nodup_cons] at hnames
      rcases List.mem_cons.mp hc with rfl | hc'
      · have h1 : Smap.lookup (cs.foldl addOneContainer (addOneContainer m c)) c.name
            = Smap.lookup (addOneContainer m c) c.name :=
          lookup_foldl_addOne_notmem cs (addOneContainer m c) c.name hnames.1
        refine ⟨{ FillContainerInfo ((Smap.lookup m c.name).getD NewContainerInfo) with
            kubeRequests := Smap.mergeInto c.requests
              (FillContainerInfo ((Smap.lookup m c.name).getD NewContainerInfo)).kubeRequests },
          ?_, ?_⟩
        · rw [List.foldl_cons, h1]
          simp only [addOneContainer]
          exact Smap.lookup_insert_self _ _ _
        · refine Smap.mergeInto_eq_of_lookup _ _ fun kv hkv => ?_
          exact Smap.lookup_mergeInto_mem c.requests _ kv
            (hreq c (List.mem_cons_self c cs)) hkv
      · exact ih (addOneContainer m c0) hnames.2
          (fun c' h' => hreq c' (List.mem_cons_of_mem c0 h')) c hc'

theorem addContainers_invalidate_idem (conts : List KContainer) (m : Smap ContainerInfo)
    (hnames : (conts.map KContainer.name).Nodup)
    (hreq : ∀ c ∈ conts, Smap.WF c.requests) :
    addContainersToPodInfo (addContainersToPodInfo m conts true) conts true =
      addContainersToPodInfo m conts true := by
  simp only [addContainersToPodInfo, if_true]
  have hfix := foldl_addOne_establishes conts m hnames hreq
  have hcond : ∀ c ∈ conts, ∃ cont,
      Smap.lookup (Smap.mapVal invalidateContainer (conts.foldl addOneContainer m)) c.name
        = some cont ∧
      Smap.mergeInto c.requests cont.kubeRequests = cont.kubeRequests := by
    intro c hc
    obtain ⟨cont, hl, hm⟩ := hfix c hc
    refine ⟨invalidateContainer cont, ?_, ?_⟩
    · rw [Smap.lookup_mapVal, hl]
      rfl
    · exact hm
  rw [foldl_addOne_id conts _ hcond,
    Smap.mapVal_mapVal invalidateContainer _ (fun b => rfl)]

theorem kubePodInfoToPodInfo_ok (pod : Pod) (pi0 : PodInfo)
    (hd : decodePodAnn pod.meta = Except.ok pi0) :
    KubePodInfoToPodInfo pod true = Except.ok
      { name := pod.meta.name, nodeName := "",
        initContainers :=
          addContainersToPodInfo pi0.initContainers pod.spec.initContainers true,
        runningContainers :=
          addContainersToPodInfo pi0.runningContainers pod.spec.containers true } := by
  simp [KubePodInfoToPodInfo, hd]

/-- **C4**: applying the invalidating pod reconciliation twice in
sequence — re-encoding the first result into the pod's annotation before
the second call — yields the same `PodInfo` as applying it once.  The
pod is well-formed as Kubernetes guarantees: container names are unique
within each list and each container's request map holds no key twice. -/
theorem invalidate_reconcile_idempotent
    (pod : Pod) (pi1 : PodInfo)
    (hn1 : (pod.spec.initContainers.map KContainer.name).Nodup)
    (hn2 : (pod.spec.containers.map KContainer.name).Nodup)
    (hr1 : ∀ c ∈ pod.spec.initContainers, Smap.WF c.requests)
    (hr2 : ∀ c ∈ pod.spec.containers, Smap.WF c.requests)
    (h1 : KubePodInfoToPodInfo pod true = Except.ok pi1) :
    KubePodInfoToPodInfo { pod with meta := PodInfoToAnnotation pod.meta pi1 } true =
      Except.ok pi1 := by
  cases hd : decodePodAnn pod.meta with
  | error e => simp [KubePodInfoToPodInfo, hd] at h1
  | ok pi0 =>
      have h1' := kubePodInfoToPodInfo_ok pod pi0 hd
      have hpi : pi1 =
          { name := pod.meta.name, nodeName := "",
            initContainers :=
              addContainersToPodInfo pi0.initContainers pod.spec.initContainers true,
            runningContainers :=
              addContainersToPodInfo pi0.runningContainers pod.spec.containers true } :=
        Except.ok.inj (h1.symm.trans h1')
      have hdec2 :
          decodePodAnn ({ pod with meta := PodInfoToAnnotation pod.meta pi1 }).meta =
            Except.ok pi1 := by
        simp [decodePodAnn, PodInfoToAnnotation, Smap.lookup_insert_self, unmarshalPodInfo]
      have h2 := kubePodInfoToPodInfo_ok
        { pod with meta := PodInfoToAnnotation pod.meta pi1 } pi1 hdec2
      rw [h2]
      simp only [Except.ok.injEq]
      rw [hpi]
      simp [PodInfo.mk.injEq, PodInfoToAnnotation,
        addContainers_invalidate_idem pod.spec.initContainers pi0.initContainers hn1 hr1,
        addContainers_invalidate_idem pod.spec.containers pi0.runningContainers hn2 hr2]

/-! ### Concrete inputs for the witness theorems -/

def wNodeInfo : NodeInfo :=
  { name := "node1", kubeCap := [], kubeAlloc := [],
    used := [("gpu", 1), ("mem", 7)] }

def wNodeMeta : ObjectMeta :=
  { name := "node1", nspace := "", labels := [],
    annotations := some [(deviceInfoKey, AnnVal.nodeJson wNodeInfo)] }

def wExisting : NodeInfo :=
  { name := "node1", kubeCap := [], kubeAlloc := [], used := [("gpu", 5)] }

def wMergedInfo : NodeInfo :=
  { name := "node1", kubeCap := [], kubeAlloc := [],
    used := [("gpu", 5), ("mem", 7)] }

def wRtNodeInfo : NodeInfo :=
  { name := "n2", kubeCap := [("cpu", 8)], kubeAlloc := [("cpu", 6)],
    used := [("gpu", 2)] }

def wRtMeta : ObjectMeta :=
  { name := "n2", nspace := "", labels := [("a", "b")], annotations := none }

def wRtPmeta : ObjectMeta :=
  { name := "p1", nspace := "ns", labels := [], annotations := none }

def wRtPodInfo : PodInfo :=
  { name := "p1", nodeName := "n1", initContainers := [],
    runningContainers := [("c1",
      { requests := [("gpu", 2)], kubeRequests := [], devRequests := [],
        allocateFrom := [] })] }

def wRtPod : Pod :=
  { meta := PodInfoToAnnotation wRtPmeta wRtPodInfo,
    spec := { nodeName := "", initContainers := [], containers := [] },
    status := { phase := "" } }

def wInvCont : ContainerInfo :=
  { requests := [("gpu", 2)], kubeRequests := [], devRequests := [("gpu", 2)],
    allocateFrom := [("gpu", "dev0")] }

def wInvPodInfo : PodInfo :=
  { name := "old", nodeName := "n9", initContainers := [],
    runningContainers := [("c1", wInvCont)] }

def wInvPodMeta : ObjectMeta :=
  { name := "p3", nspace := "ns", labels := [],
    annotations := some [(deviceInfoKey, AnnVal.podJson wInvPodInfo)] }

def wInvPod : Pod :=
  { meta := wInvPodMeta,
    spec := { nodeName := "nX", initContainers := [],
              containers := [(⟨"c1", [("gpu", 2)]⟩ : KContainer)] },
    status := { phase := "" } }

def wInvPodInfoR : PodInfo :=
  { name := "p3", nodeName := "", initContainers := [],
    runningContainers := [("c1",
      { requests := [("gpu", 2)], kubeRequests := [("gpu", 2)],
        devRequests := [("gpu", 2)], allocateFrom := [] })] }

def wEmptyMeta : ObjectMeta :=
  { name := "n5", nspace := "", labels := [], annotations := none }

def wEmptyPodMeta : ObjectMeta :=
  { name := "p5", nspace := "", labels := [],
    annotations := some [("other", AnnVal.malformed "x")] }

def wEmptyPod : Pod :=
  { meta := wEmptyPodMeta,
    spec := { nodeName := "", initContainers := [], containers := [] },
    status := { phase := "" } }

def wLivePod : Pod :=
  { meta := { name := "p6", nspace := "ns", labels := [("l", "v")],
              annotations := some [("a", AnnVal.malformed "z")] },
    spec := { nodeName := "m1", initContainers := [],
              containers := [(⟨"c1", [("cpu", 1)]⟩ : KContainer)] },
    status := { phase := "Running" } }

def wDesiredPod : Pod :=
  { meta := { name := "p6", nspace := "ns", labels := [],
              annotations := some [(deviceInfoKey, AnnVal.podJson wRtPodInfo)] },
    spec := { nodeName := "", initContainers := [], containers := [] },
    status := { phase := "" } }

def wPatchNodeOld : Node :=
  { meta := { name := "n8", nspace := "", labels := [("x", "y")],
              annotations := some [("keep", AnnVal.malformed "v")] },
    spec := { podCIDR := "10.0.0.0/24" },
    status := { capacity := [("cpu", 4)], allocatable := [("cpu", 3)] } }

def wPatchNodeNew : Node :=
  { wPatchNodeOld with
    meta := { wPatchNodeOld.meta with
              annotations := some [("keep", AnnVal.malformed "v"),
                                   (deviceInfoKey, AnnVal.nodeJson wNodeInfo)] } }

def wPatchPodOld : Pod :=
  { meta := { name := "p8", nspace := "ns", labels := [],
              annotations := some [(deviceInfoKey, AnnVal.podJson wRtPodInfo)] },
    spec := { nodeName := "m1", initContainers := [],
              containers := [(⟨"c1", [("cpu", 1)]⟩ : KContainer)] },
    status := { phase := "Running" } }

def wPatchPodNew : Pod :=
  { wPatchPodOld with
    meta := { wPatchPodOld.meta with annotations := none } }

def wBadMeta : ObjectMeta :=
  { name := "n9", nspace := "", labels := [],
    annotations := some [(deviceInfoKey, AnnVal.malformed "oops")] }

def wBadPodMeta : ObjectMeta :=
  { name := "p9", nspace := "", labels := [],
    annotations := some [(deviceInfoKey, AnnVal.malformed "oops2")] }

def wBadPod : Pod :=
  { meta := wBadPodMeta,
    spec := { nodeName := "", initContainers := [], containers := [] },
    status := { phase := "" } }

/-! ### Witness theorems -/

/-- Witness for the C1 theorem at a concrete node metadata. -/
theorem reconcile_merge_prefers_existing_witness :
    Smap.WF wExisting.used ∧ wExisting.used ≠ [] ∧
    ((∀ k v, Smap.lookup wExisting.used k = some v →
        Smap.lookup wMergedInfo.used k = some v) ∧
      (∀ k, Smap.lookup wExisting.used k = none →
        Smap.lookup wMergedInfo.used k = Smap.lookup wNodeInfo.used k)) :=
  ⟨by decide, by decide,
    reconcile_merge_prefers_existing wNodeMeta wExisting wMergedInfo wNodeInfo
      (by decide) (by decide) rfl rfl⟩

/-- Witness for the C2 theorem at a concrete model and metadata. -/
theorem encode_decode_roundtrip_witness :
    trimSpace wRtNodeInfo.name ≠ "" ∧
    ( AnnotationToNodeInfo ( NodeInfoToAnnotation wRtMeta wRtNodeInfo) none =
        Except.ok wRtNodeInfo ∧
      KubePodInfoToPodInfo wRtPod false = Except.ok wRtPodInfo) :=
  ⟨by decide,
    encode_decode_roundtrip wRtMeta wRtPmeta wRtNodeInfo wRtPodInfo wRtPod
      (by decide) rfl rfl rfl rfl⟩

/-- Witness for the C3 theorem at a concrete pod with a prior device
assignment. -/
theorem invalidate_resets_allocations_witness :
    KubePodInfoToPodInfo wInvPod true = Except.ok wInvPodInfoR ∧
    (wInvPodInfoR.nodeName = "" ∧
      (∀ n ci, Smap.lookup wInvPodInfoR.initContainers n = some ci →
          ci.allocateFrom = [] ∧ ci.devRequests = Smap.copy ci.requests) ∧
      (∀ n ci, Smap.lookup wInvPodInfoR.runningContainers n = some ci →
          ci.allocateFrom = [] ∧ ci.devRequests = Smap.copy ci.requests)) :=
  ⟨rfl, invalidate_resets_allocations wInvPod wInvPodInfoR rfl⟩

/-- Witness for the C4 theorem at the same concrete pod. -/
theorem invalidate_reconcile_idempotent_witness :
    (List.map KContainer.name wInvPod.spec.containers).Nodup ∧
    (∀ c ∈ wInvPod.spec.containers, Smap.WF c.requests) ∧
    KubePodInfoToPodInfo wInvPod true = Except.ok wInvPodInfoR ∧
    KubePodInfoToPodInfo
        { wInvPod with meta := PodInfoToAnnotation wInvPod.meta wInvPodInfoR } true =
      Except.ok wInvPodInfoR :=
  ⟨by decide, by decide, rfl,
    invalidate_reconcile_idempotent wInvPod wInvPodInfoR (by decide) (by decide)
      (by decide) (by decide) rfl⟩

/-- Witness for the C5 theorem at a nil annotations map and at a map
lacking the reserved key. -/
theorem missing_annotation_decode_empty_witness :
    AnnotationToNodeInfo wEmptyMeta none =
      Except.ok { NewNodeInfo with name := wEmptyMeta.name } ∧
    KubePodInfoToPodInfo wEmptyPod true =
      Except.ok { NewPodInfo with name := wEmptyPod.meta.name } :=
  missing_annotation_decode_empty wEmptyMeta wEmptyPod true (Or.inl rfl)
    (Or.inr ⟨_, rfl, rfl⟩) rfl rfl

/-- Witness for the C6 theorem against a one-pod store. -/
theorem updatePodMetadata_identity_and_frame_witness :
    ((wDesiredPod.meta.name ≠ wLivePod.meta.name ∨
        wDesiredPod.meta.nspace ≠ wLivePod.meta.nspace) →
      UpdatePodMetadata (fun _ _ => Except.ok wLivePod) Except.ok wDesiredPod =
        Except.error newPodMismatchErr) ∧
    (wDesiredPod.meta.name = wLivePod.meta.name →
      wDesiredPod.meta.nspace = wLivePod.meta.nspace →
      UpdatePodMetadata (fun _ _ => Except.ok wLivePod) Except.ok wDesiredPod =
        Except.ok
          { wLivePod with
            meta := { wLivePod.meta with annotations := wDesiredPod.meta.annotations } }) :=
  updatePodMetadata_identity_and_frame (fun _ _ => Except.ok wLivePod) Except.ok
    wDesiredPod wLivePod rfl

/-- Witness for the C8 theorem at concrete nodes and pods that differ
only in annotations. -/
theorem patch_minimal_annotations_only_witness :
    (GetPatchBytes "n8" wPatchNodeOld wPatchNodeNew =
        Except.ok (buildNodePatch wPatchNodeOld wPatchNodeNew) ∧
      (buildNodePatch wPatchNodeOld wPatchNodeNew).meta.name = none ∧
      (buildNodePatch wPatchNodeOld wPatchNodeNew).meta.nspace = none ∧
      (buildNodePatch wPatchNodeOld wPatchNodeNew).meta.labels = none ∧
      (buildNodePatch wPatchNodeOld wPatchNodeNew).spec = none ∧
      (buildNodePatch wPatchNodeOld wPatchNodeNew).statusCapacity = none ∧
      (buildNodePatch wPatchNodeOld wPatchNodeNew).statusAllocatable = none ∧
      ∀ r, (applyNodePatch r (buildNodePatch wPatchNodeOld wPatchNodeNew)).meta.name =
          r.meta.name ∧
        (applyNodePatch r (buildNodePatch wPatchNodeOld wPatchNodeNew)).meta.nspace =
          r.meta.nspace ∧
        (applyNodePatch r (buildNodePatch wPatchNodeOld wPatchNodeNew)).meta.labels =
          r.meta.labels ∧
        (applyNodePatch r (buildNodePatch wPatchNodeOld wPatchNodeNew)).spec = r.spec ∧
        (applyNodePatch r (buildNodePatch wPatchNodeOld wPatchNodeNew)).status =
          r.status) ∧
    ((buildPodPatch wPatchPodOld wPatchPodNew).meta.name = none ∧
      (buildPodPatch wPatchPodOld wPatchPodNew).meta.nspace = none ∧
      (buildPodPatch wPatchPodOld wPatchPodNew).meta.labels = none ∧
      (buildPodPatch wPatchPodOld wPatchPodNew).spec = none ∧
      (buildPodPatch wPatchPodOld wPatchPodNew).status = none ∧
      ∀ r, (applyPodPatch r (buildPodPatch wPatchPodOld wPatchPodNew)).meta.name =
          r.meta.name ∧
        (applyPodPatch r (buildPodPatch wPatchPodOld wPatchPodNew)).meta.nspace =
          r.meta.nspace ∧
        (applyPodPatch r (buildPodPatch wPatchPodOld wPatchPodNew)).meta.labels =
          r.meta.labels ∧
        (applyPodPatch r (buildPodPatch wPatchPodOld wPatchPodNew)).spec = r.spec ∧
        (applyPodPatch r (buildPodPatch wPatchPodOld wPatchPodNew)).status = r.status) :=
  patch_minimal_annotations_only "n8" wPatchNodeOld wPatchNodeNew wPatchPodOld
    wPatchPodNew rfl rfl rfl rfl rfl rfl rfl rfl rfl rfl

/-- Witness for the C9 theorem at concrete malformed annotations. -/
theorem malformed_annotation_decode_error_witness :
    AnnotationToNodeInfo wBadMeta none = Except.error (unmarshalErr "oops") ∧
    KubePodInfoToPodInfo wBadPod false = Except.error (unmarshalErr "oops2") :=
  malformed_annotation_decode_error wBadMeta none wBadPod false
    [(deviceInfoKey, AnnVal.malformed "oops")]
    [(deviceInfoKey, AnnVal.malformed "oops2")] "oops" "oops2" rfl rfl rfl rfl

end KubeDevice
